import Mathlib

/-!
Verification of the parkrun-parser repository (Go) against its
natural-language specification, via a shallow embedding in Lean 4.

The embedding follows the Go source files:
  * `main.go`     — the ingest loop `parseAndStoreResults`;
  * `parser.go`   — `scrapeEvent` row extraction and `timeToSeconds`;
  * `db.go`       — `StoreEvent`, `StoreResults`, `GetNextEventNumber`,
                    `ClearLocationData`, over the three-table SQLite schema;
  * `reports.go`  — `GetTopParticipants`, `GetMedianTimesByAgeCategory`,
                    the distinct-runner count of `GetLocationStats`,
                    `secondsToTime`, and the category-grouping step of
                    `PrintReports` / `PrintComparisonReport`.

Machine integers are modelled as `Int` (Go `int` is 64-bit; none of the
quantities involved — positions, seconds, event numbers, row ids — come
anywhere near overflow in the verified properties, so arithmetic is exact).
Fallible Go functions returning `(T, error)` are modelled as
`Except String T`.  SQLite tables are lists of row structures together with
the `AUTOINCREMENT` sequence counters, and each SQL statement is given its
documented semantics.
-/

deriving instance DecidableEq for Except

namespace Parkrun

/-! ### Go standard-library string helpers -/

/-- `strings.Split(s, sep)` for a one-character separator, on the character
list of the string: splitting the empty string yields one empty segment,
and each occurrence of the separator starts a new segment. -/
def splitOnChar (sep : Char) : List Char → List (List Char)
  | [] => [[]]
  | c :: cs =>
    match splitOnChar sep cs with
    | [] => [[]]
    | g :: gs => if c = sep then [] :: g :: gs else (c :: g) :: gs

/-- `strings.Split(s, ":")` as used by `timeToSeconds`. -/
def goSplitColon (s : String) : List String :=
  (splitOnChar ':' s.data).map String.mk

/-! ### Go `strconv.Atoi`

`strconv.Atoi` accepts an optional leading `+` or `-` sign followed by one
or more decimal digits, and fails on anything else (empty string, empty
digit part, non-digit characters).  Overflow of 64-bit `int` is not
modelled: no claim involves numbers of that magnitude. -/

def digitsVal (ds : List Char) : Nat :=
  ds.foldl (fun a c => a * 10 + (c.toNat - '0'.toNat)) 0

def goAtoi (s : String) : Except String Int :=
  match s.data with
  | [] => .error "invalid syntax"
  | c :: rest =>
    let signed : Bool × List Char :=
      if c = '-' then (true, rest)
      else if c = '+' then (false, rest)
      else (false, c :: rest)
    match signed with
    | (neg, digits) =>
      if digits ≠ [] ∧ digits.all (·.isDigit) then
        .ok (if neg then -(digitsVal digits : Int) else (digitsVal digits : Int))
      else .error "invalid syntax"

/-- Go pattern `n, _ := strconv.Atoi(s)`: the error is discarded and the
zero value is used when parsing fails. -/
def goAtoiOrZero (s : String) : Int :=
  match goAtoi s with
  | .ok n => n
  | .error _ => 0

/-! ### `parser.go`: `timeToSeconds` -/

/-- `timeToSeconds` from `parser.go`: `""` and `"Unknown"` yield `0`
without an error; otherwise the string is split on `":"`; two segments are
read as minutes/seconds, three as hours/minutes/seconds, each segment going
through `strconv.Atoi`; any other segment count is a format error. -/
def timeToSeconds (timeStr : String) : Except String Int :=
  if timeStr = "" ∨ timeStr = "Unknown" then .ok 0
  else
    match goSplitColon timeStr with
    | [m, s] =>
      match goAtoi m with
      | .error _ => .error "invalid minutes"
      | .ok minutes =>
        match goAtoi s with
        | .error _ => .error "invalid seconds"
        | .ok seconds => .ok (minutes * 60 + seconds)
    | [h, m, s] =>
      match goAtoi h with
      | .error _ => .error "invalid hours"
      | .ok hours =>
        match goAtoi m with
        | .error _ => .error "invalid minutes"
        | .ok minutes =>
          match goAtoi s with
          | .error _ => .error "invalid seconds"
          | .ok seconds => .ok (hours * 3600 + minutes * 60 + seconds)
    | _ => .error "invalid time format"

/-- Whether an `Except` result is a success. -/
def isOkE {ε α : Type} : Except ε α → Bool
  | .ok _ => true
  | .error _ => false

/-- Modelled from the spec (for the amended C6 only): the shape condition
the spec ascribes to accepted inputs — two or three colon-separated
segments, each accepted by `strconv.Atoi`. -/
def segmentsParse (s : String) : Bool :=
  match goSplitColon s with
  | [a, b] => isOkE (goAtoi a) && isOkE (goAtoi b)
  | [a, b, c] => isOkE (goAtoi a) && isOkE (goAtoi b) && isOkE (goAtoi c)
  | _ => false

/-! ### `main.go`: the ingest loop of `parseAndStoreResults`

One iteration of the `for` loop in `parseAndStoreResults` (main.go,
lines 151–196) is modelled as a step function.  The input of a step is the
classified outcome of `ParseResults` — an HTTP 405 (`rateLimited`), an
HTTP 425 (`exhausted`), any other fetch error (`otherFailure`), or a
success, which in the source is followed by `StoreEvent`, whose own
success or failure (`fetched storeOk`) determines whether the loop body
reaches `eventID++`. -/

def waitBetweenRequests : Nat := 5
def rateLimitBackoff : Nat := 180
def maxConsecutiveErrors : Nat := 3

inductive FetchOutcome where
  | rateLimited : FetchOutcome
  | exhausted : FetchOutcome
  | otherFailure : FetchOutcome
  | fetched (storeOk : Bool) : FetchOutcome
  deriving DecidableEq

structure LoopState where
  eventID : Nat
  consecutiveErrors : Nat
  deriving DecidableEq

/-- Result of one loop iteration: either re-enter the loop in a new state
after sleeping `sleepSeconds`, or leave the loop (`failed` records whether
termination was the consecutive-error stop rather than the normal
end-of-events return). -/
inductive StepOutcome where
  | next (s : LoopState) (sleepSeconds : Nat) : StepOutcome
  | finished (failed : Bool) : StepOutcome
  deriving DecidableEq

/-- One iteration of the ingest loop (`main.go` lines 151–196):
405 sleeps the long backoff and retries the same event number;
425 returns; any other fetch error increments `consecutiveErrors` and
breaks with a failure notice at the threshold, otherwise sleeps the short
interval and retries; a successful fetch resets `consecutiveErrors` to 0,
and then either stores and advances (`eventID++`, short sleep) or — when
`StoreEvent` fails — `continue`s with the same event number and no sleep. -/
def loopStep (s : LoopState) : FetchOutcome → StepOutcome
  | .rateLimited => .next s rateLimitBackoff
  | .exhausted => .finished false
  | .otherFailure =>
    let e := s.consecutiveErrors + 1
    if e ≥ maxConsecutiveErrors then .finished true
    else .next ⟨s.eventID, e⟩ waitBetweenRequests
  | .fetched storeOk =>
    if storeOk then .next ⟨s.eventID + 1, 0⟩ waitBetweenRequests
    else .next ⟨s.eventID, 0⟩ 0

/-! ### `parser.go`: the row-extraction loop of `scrapeEvent`

`scrapeEvent` iterates over the `.Results-table-row` elements.  A row is
modelled by the raw attribute/text values the Go code reads from it; an
absent attribute is `none` and `AttrOr` supplies the default. -/

structure GoResult where
  position : Int
  name : String
  time : String
  timeSeconds : Int
  ageGrade : String
  ageCategory : String
  note : String
  totalRuns : Int
  eventID : Int
  deriving DecidableEq

structure GoEvent where
  eventNumber : Int
  locationID : Int
  date : String
  url : String
  deriving DecidableEq

/-- Whether the first list heads the second (helper for `goContains`). -/
def leadingMatch : List Char → List Char → Bool
  | [], _ => true
  | _ :: _, [] => false
  | p :: ps, c :: cs => p = c && leadingMatch ps cs

/-- `strings.Contains(s, pat)` on character lists. -/
def containsSeg (pat : List Char) : List Char → Bool
  | [] => pat.isEmpty
  | c :: cs => leadingMatch pat (c :: cs) || containsSeg pat cs

/-- Go `strings.Contains(s, pat)`. -/
def goContains (s pat : String) : Bool :=
  containsSeg pat.data s.data

/-- Go `strings.TrimSpace` (whitespace here is the ASCII space/tab/newline
family, which covers every value the claims touch). -/
def goTrimSpace (s : String) : String :=
  String.mk
    (((s.data.dropWhile Char.isWhitespace).reverse.dropWhile
        Char.isWhitespace).reverse)

structure RawRow where
  dataPosition : Option String
  dataName : Option String
  dataAgegroup : Option String
  timeCell : String
  runsText : String
  dataAgegrade : Option String
  dataAchievement : Option String

/-- The body of `resultRows.Each` in `scrapeEvent` (parser.go,
lines 110–154) for a single row: `some` result when the row is appended to
`results`, `none` when the row is skipped (`skippedRows++`).  The
`data-position` attribute is parsed with `strconv.Atoi` and its error
discarded (`position, _ :=`), so an unparsable position becomes `0` and
never causes a skip; the only skip is a failed `timeToSeconds` for a row
whose name is not `"Unknown"`. -/
def processRow (r : RawRow) : Option GoResult :=
  let position := goAtoiOrZero (r.dataPosition.getD "0")
  let name := r.dataName.getD ""
  let ageGroup := r.dataAgegroup.getD ""
  let totalRuns :=
    if goContains r.runsText "parkrun" then
      goAtoiOrZero (((splitOnChar ' ' r.runsText.data).map String.mk).headD "")
    else 0
  let ageGrade := r.dataAgegrade.getD ""
  let achievement := r.dataAchievement.getD ""
  let time := goTrimSpace r.timeCell
  if name ≠ "Unknown" then
    match timeToSeconds time with
    | .error _ => none
    | .ok ts =>
      some ⟨position, name, time, ts, ageGrade, ageGroup, achievement, totalRuns, 0⟩
  else
    some ⟨position, name, time, 0, ageGrade, ageGroup, achievement, totalRuns, 0⟩

/-- Accumulation of one row into `(results, processedRows, skippedRows)`. -/
def scrapeStep (acc : List GoResult × Nat × Nat) (r : RawRow) :
    List GoResult × Nat × Nat :=
  match processRow r with
  | some res => (acc.1 ++ [res], acc.2.1 + 1, acc.2.2)
  | none => (acc.1, acc.2.1, acc.2.2 + 1)

/-- The whole `resultRows.Each` loop: the extracted results in document
order, the `processedRows` count and the `skippedRows` count. -/
def scrapeRows (rows : List RawRow) : List GoResult × Nat × Nat :=
  rows.foldl scrapeStep ([], 0, 0)

/-! ### `db.go`: the SQLite store

The three tables of `CreateTables`, modelled as lists of rows plus the
`AUTOINCREMENT` rowid sequences of `events` and `results`.  A table's
`AUTOINCREMENT` sequence is at least every rowid ever issued, so a fresh
rowid (`seq + 1`) differs from every row currently in the table. -/

structure LocationRow where
  id : Int
  slug : String
  name : String
  country : String
  deriving DecidableEq

structure EventRow where
  id : Int
  event_number : Int
  location_id : Int
  date : String
  url : String
  deriving DecidableEq

structure ResultRow where
  id : Int
  position : Int
  name : String
  time_seconds : Option Int
  age_grade : String
  age_category : String
  note : String
  total_runs : Int
  event_id : Int
  deriving DecidableEq

structure DB where
  locations : List LocationRow
  events : List EventRow
  results : List ResultRow
  eventsSeq : Int
  resultsSeq : Int
  deriving DecidableEq

/-- `StoreEvent` (db.go, lines 52–64): `INSERT OR REPLACE INTO events
(event_number, location_id, date, url) VALUES (?,?,?,?)`.  Per SQLite's
documented `REPLACE` semantics, any row violating `UNIQUE(event_number,
location_id)` is deleted and the new row is inserted as an ordinary
insert; since `id` is not supplied, the new row receives a fresh
`AUTOINCREMENT` rowid, which `LastInsertId` returns. -/
def storeEvent (db : DB) (e : GoEvent) : Int × DB :=
  let newId := db.eventsSeq + 1
  let kept := db.events.filter
    (fun r => ¬(r.event_number = e.eventNumber ∧ r.location_id = e.locationID))
  (newId,
    { db with
      events := kept ++ [⟨newId, e.eventNumber, e.locationID, e.date, e.url⟩]
      eventsSeq := newId })

/-- One iteration of the `StoreResults` loop (db.go, lines 76–98):
`INSERT OR REPLACE INTO results ...` keyed by `UNIQUE(position, event_id)`,
with `time_seconds` stored as NULL unless `result.TimeSeconds > 0`. -/
def insertResult (db : DB) (r : GoResult) (eventID : Int) : DB :=
  let ts : Option Int := if r.timeSeconds > 0 then some r.timeSeconds else none
  let newId := db.resultsSeq + 1
  let kept := db.results.filter
    (fun q => ¬(q.position = r.position ∧ q.event_id = eventID))
  { db with
    results := kept ++
      [⟨newId, r.position, r.name, ts, r.ageGrade, r.ageCategory, r.note,
        r.totalRuns, eventID⟩]
    resultsSeq := newId }

/-- `StoreResults` (db.go, lines 67–101). -/
def storeResults (db : DB) (results : List GoResult) (eventID : Int) : DB :=
  results.foldl (fun d r => insertResult d r eventID) db

/-- The largest element of a list of integers, `none` for the empty list
(SQL `MAX`). -/
def maxOfList : List Int → Option Int
  | [] => none
  | x :: xs =>
    match maxOfList xs with
    | none => some x
    | some m => some (max x m)

/-- `GetNextEventNumber` (db.go, lines 104–115):
`SELECT COALESCE(MAX(event_number), 0) FROM events WHERE location_id = ?`,
plus one. -/
def getNextEventNumber (db : DB) (locationID : Int) : Int :=
  ((db.events.filter (fun e => e.location_id = locationID)).map
      (fun e => e.event_number)
    |> maxOfList).getD 0 + 1

/-- Which statements of the `ClearLocationData` transaction fail, if any
(a database-level error on `Begin`, one of the three `DELETE`s, or
`Commit`). -/
structure TxFailures where
  beginTx : Bool
  delResults : Bool
  delEvents : Bool
  delLocation : Bool
  commit : Bool
  deriving DecidableEq

def TxFailures.none' : TxFailures := ⟨false, false, false, false, false⟩

/-- `ClearLocationData` (db.go, lines 118–168).  The location id is looked
up by slug; `sql.ErrNoRows` returns `nil` with nothing changed.  Otherwise
the three `DELETE`s run inside one transaction: results of the location's
events, then those events, then the location row.  Any failing statement
rolls the transaction back, so the returned database is unchanged and an
error is reported; only a successful `Commit` publishes the deletions. -/
def clearLocationData (db : DB) (slug : String) (f : TxFailures) :
    DB × Option String :=
  match db.locations.find? (fun l => l.slug = slug) with
  | none => (db, none)
  | some loc =>
    if f.beginTx then (db, some "error starting transaction")
    else if f.delResults then (db, some "error deleting results")
    else if f.delEvents then (db, some "error deleting events")
    else if f.delLocation then (db, some "error deleting location")
    else if f.commit then (db, some "error committing transaction")
    else
      let eventIds :=
        (db.events.filter (fun e => e.location_id = loc.id)).map (fun e => e.id)
      ({ db with
          results := db.results.filter (fun r => ¬ r.event_id ∈ eventIds)
          events := db.events.filter (fun e => ¬ e.location_id = loc.id)
          locations := db.locations.filter (fun l => ¬ l.id = loc.id) },
        none)

/-! ### `reports.go`: the report engine

The current `reports.go` is the revision that defines
`PrintComparisonReport` (which `main.go`'s `compare` command calls) and
whose `parseDateTime` accepts the plain `YYYY-MM-DD` dates the store
writes; its `GetMedianTimesByAgeCategory` averages the two central
elements for even-sized samples.  (An earlier revision of the file, which
indexes `times[len(times)/2]` unconditionally, is also in the source pack
but does not build with the current `main.go` and tests.) -/

/-- Go `fmt.Sprintf("%02d", n)`: zero-pad to width two (only a
single-digit non-negative value is shorter than two characters). -/
def pad2 (n : Int) : String :=
  if 0 ≤ n ∧ n < 10 then "0" ++ toString n else toString n

/-- `secondsToTime` from `reports.go`: `0` renders as `"Unknown"`,
otherwise `H:MM:SS` when at least one hour, else `M:SS`.  Go's `/` and `%`
truncate toward zero, i.e. `Int.tdiv` / `Int.tmod`. -/
def secondsToTime (seconds : Int) : String :=
  if seconds = 0 then "Unknown"
  else
    let hours := seconds.tdiv 3600
    let minutes := (seconds.tmod 3600).tdiv 60
    let secs := seconds.tmod 60
    if hours > 0 then
      toString hours ++ ":" ++ pad2 minutes ++ ":" ++ pad2 secs
    else
      toString minutes ++ ":" ++ pad2 secs

/-- The SQL join `FROM results r JOIN events e ON r.event_id = e.id WHERE
e.location_id = ?`: every result row paired with each matching event row
of the requested location. -/
def joinedResults (db : DB) (locationID : Int) : List ResultRow :=
  (db.results.map
    (fun r =>
      (db.events.filter
        (fun e => e.id = r.event_id ∧ e.location_id = locationID)).map
        (fun _ => r))).flatten

/-- `GetTopParticipants` (reports.go): names of the location's results
with `r.name != 'Unknown'`, grouped by name with their counts, ordered by
count descending (ties in an arbitrary, here stable, order), first
`limit` entries. -/
def getTopParticipants (db : DB) (locationID : Int) (limit : Nat) :
    List (String × Nat) :=
  let names :=
    ((joinedResults db locationID).filter
      (fun r => ¬ r.name = "Unknown")).map (fun r => r.name)
  ((names.dedup.map (fun n => (n, names.count n))).insertionSort
      (fun a b => b.2 ≤ a.2)).take limit

/-- The `total_runners` entry of `GetLocationStats` (reports.go):
`SELECT COUNT(DISTINCT name)` over the location's results — with no
filter on the anonymized placeholder name. -/
def getTotalRunners (db : DB) (locationID : Int) : Nat :=
  ((joinedResults db locationID).map (fun r => r.name)).dedup.length

/-- The rows produced by the query of `GetMedianTimesByAgeCategory`:
`(age_category, time_seconds)` of the location's results with
`time_seconds > 0` (which excludes NULL) and `age_category != ''`. -/
def medianQueryRows (db : DB) (locationID : Int) : List (String × Int) :=
  ((joinedResults db locationID).filter
    (fun r => r.time_seconds.getD 0 > 0 ∧ ¬ r.age_category = "")).map
    (fun r => (r.age_category, r.time_seconds.getD 0))

/-- The multiset of times the query yields for one category. -/
def timesForCat (db : DB) (locationID : Int) (cat : String) : List Int :=
  ((medianQueryRows db locationID).filter (fun p => p.1 = cat)).map Prod.snd

/-- The categories of the report, in the order the function returns them
(the Go code groups rows into a map and sorts the stats by category, so
the output order is the sorted distinct-category list). -/
def categoriesSorted (db : DB) (locationID : Int) : List String :=
  (((medianQueryRows db locationID).map Prod.fst).dedup).insertionSort (· ≤ ·)

/-- The median computation of `GetMedianTimesByAgeCategory` on one
category's times: ascending `sort.Ints`, then the average of the two
central elements for an even count, the middle element for an odd count
(Go integer division truncates toward zero). -/
def medianVal (times : List Int) : Int :=
  let sorted := times.insertionSort (· ≤ ·)
  let n := sorted.length
  if n % 2 = 0 ∧ n > 0 then
    ((sorted.getD (n / 2 - 1) 0) + (sorted.getD (n / 2) 0)).tdiv 2
  else if n > 0 then sorted.getD (n / 2) 0
  else 0

structure TimeStats where
  category : String
  median : String
  count : Nat
  deriving DecidableEq

/-- `GetMedianTimesByAgeCategory` (reports.go).  The Go code accumulates
the query rows into a `map[string][]int` and finally sorts the stats by
category; since the per-category median and count are invariant under the
order in which that map is iterated and its time slices are filled, the
function's output is the sorted distinct-category list with each
category's median and count. -/
def getMedianTimesByAgeCategory (db : DB) (locationID : Int) :
    List TimeStats :=
  (categoriesSorted db locationID).map
    (fun c =>
      ⟨c, secondsToTime (medianVal (timesForCat db locationID c)),
        (timesForCat db locationID c).length⟩)

/-! ### The category-grouping step of `PrintReports` / `PrintComparisonReport`

Both functions compute `prefixTwo := stat.Category[:2]` with no length
guard; in Go that slice panics when the string is shorter than two bytes.
The slice is modelled as an `Option`, `none` being the panic. -/

/-- Go `s[:2]`: the first two characters, or a panic (`none`) when the
string is shorter. -/
def goSliceTwo (s : String) : Option String :=
  if 2 ≤ s.data.length then some (String.mk (s.data.take 2)) else none

/-- The `switch` on the two-character code slice shared by `PrintReports`
and `PrintComparisonReport`. -/
def groupNameOfCode (p : String) : String :=
  if p = "JM" ∨ p = "JW" then "Juniors"
  else if p = "SM" ∨ p = "VM" then "Men"
  else if p = "SW" ∨ p = "VW" then "Women"
  else "Other"

/-- Slicing-and-bucketing every category of a list; `none` as soon as one
category makes the `[:2]` slice panic (the panic aborts the loop, so the
categories after it are never reached). -/
def groupCategories : List String → Option (List (String × String))
  | [] => some []
  | c :: cs =>
    match goSliceTwo c with
    | none => none
    | some p =>
      match groupCategories cs with
      | none => none
      | some rest => some ((c, groupNameOfCode p) :: rest)

/-- The grouping loop of `PrintReports` (reports.go, the
`stat.Category[:2]` switch), fed by `GetMedianTimesByAgeCategory`. -/
def printReportsGrouping (db : DB) (locationID : Int) :
    Option (List (String × String)) :=
  groupCategories
    ((getMedianTimesByAgeCategory db locationID).map (fun t => t.category))

/-- The category union `PrintComparisonReport` groups (the `cat[:2]`
switch over all categories seen at either location). -/
def comparisonCategories (db : DB) (loc1 loc2 : Int) : List String :=
  (((getMedianTimesByAgeCategory db loc1).map (fun t => t.category)) ++
    ((getMedianTimesByAgeCategory db loc2).map (fun t => t.category))).dedup

/-- The grouping loop of `PrintComparisonReport`. -/
def comparisonGrouping (db : DB) (loc1 loc2 : Int) :
    Option (List (String × String)) :=
  groupCategories (comparisonCategories db loc1 loc2)

/-! ## Theorems -/

/-- C1 (counterexample): a successful fetch does not always advance the
event number.  In `main.go`, when `ParseResults` succeeds but `StoreEvent`
fails, the loop `continue`s with the same `eventID` (and no sleep): from
event number 5 with 2 consecutive errors, a successful fetch whose store
fails re-enters the loop still at event number 5 — the claim's "every
successful fetch … advances the event number by one" would require 6. -/
theorem ingest_success_store_failure_no_advance :
    loopStep ⟨5, 2⟩ (FetchOutcome.fetched false) =
      StepOutcome.next ⟨5, 0⟩ 0 := by
  decide

/-- C1 (amended): one iteration of the ingest loop behaves as the
specified state machine, with the store-failure carve-out: a rate-limited
(405) failure sleeps the 180 s backoff and retries the same event number
without touching the consecutive-error counter; an exhausted (425)
response terminates successfully; any other fetch failure increments the
counter, stopping with the failure flag once it reaches 3 and otherwise
sleeping 5 s and retrying the same event number; a successful fetch resets
the counter to zero and advances the event number by one when the event
store succeeds, while a store failure leaves the event number unchanged. -/
theorem ingest_loop_step_matches_state_machine (s : LoopState) :
    loopStep s FetchOutcome.rateLimited = StepOutcome.next s rateLimitBackoff
    ∧ loopStep s FetchOutcome.exhausted = StepOutcome.finished false
    ∧ (s.consecutiveErrors + 1 ≥ maxConsecutiveErrors →
        loopStep s FetchOutcome.otherFailure = StepOutcome.finished true)
    ∧ (s.consecutiveErrors + 1 < maxConsecutiveErrors →
        loopStep s FetchOutcome.otherFailure =
          StepOutcome.next ⟨s.eventID, s.consecutiveErrors + 1⟩
            waitBetweenRequests)
    ∧ loopStep s (FetchOutcome.fetched true) =
        StepOutcome.next ⟨s.eventID + 1, 0⟩ waitBetweenRequests
    ∧ loopStep s (FetchOutcome.fetched false) =
        StepOutcome.next ⟨s.eventID, 0⟩ 0 := by
  refine ⟨rfl, rfl, ?_, ?_, rfl, rfl⟩
  · intro h
    simp only [loopStep, if_pos h]
  · intro h
    simp only [loopStep, if_neg (Nat.not_le_of_lt h)]

/-- C1 witness: the amended state machine evaluated at concrete states,
discharging both threshold hypotheses. -/
theorem ingest_loop_step_matches_state_machine_witness :
    loopStep ⟨7, 0⟩ FetchOutcome.otherFailure =
      StepOutcome.next ⟨7, 1⟩ waitBetweenRequests
    ∧ loopStep ⟨7, 2⟩ FetchOutcome.otherFailure =
      StepOutcome.finished true :=
  ⟨(ingest_loop_step_matches_state_machine ⟨7, 0⟩).2.2.2.1 (by decide),
    (ingest_loop_step_matches_state_machine ⟨7, 2⟩).2.2.1 (by decide)⟩

/-- A result row of `scrapeEvent` whose `data-position` attribute is the
non-numeric string `"abc"` — certainly not a positive integer. -/
def c4Row : RawRow :=
  ⟨some "abc", some "A", some "VM35-39", "20:00", "", some "60.0%", none⟩

/-- C4 (counterexample): a row whose position does not parse as a positive
integer is neither skipped nor counted.  `scrapeEvent` parses
`data-position` with `position, _ := strconv.Atoi(...)`, discarding the
error, so the row above is returned with position `0`, the processed count
is 1 and the skipped tally stays 0 — the claim would require it to be
excluded and counted as skipped. -/
theorem row_with_unparsable_position_not_skipped :
    scrapeRows [c4Row] =
      ([⟨0, "A", "20:00", 1200, "60.0%", "VM35-39", "", 0, 0⟩], 1, 0) := by
  decide

/-- Helper: the `Each` fold of `scrapeEvent` from an arbitrary
accumulator. -/
theorem scrapeRows_go (rows : List RawRow) (acc : List GoResult × Nat × Nat) :
    rows.foldl scrapeStep acc =
      (acc.1 ++ rows.filterMap processRow,
        acc.2.1 + (rows.filter (fun r => (processRow r).isSome)).length,
        acc.2.2 + (rows.filter (fun r => (processRow r).isNone)).length) := by
  induction rows generalizing acc with
  | nil => simp
  | cons r rows ih =>
    rcases hpr : processRow r with _ | v <;>
      simp [List.foldl_cons, scrapeStep, hpr, ih, List.filterMap_cons,
        List.filter_cons] <;> omega

/-- C4 (amended): the extractor's only skip condition is the time field.
A row is skipped (and counted in the skipped tally) exactly when its name
is not the placeholder `"Unknown"` and its trimmed time text fails
`timeToSeconds`; the position attribute is parsed leniently — a parse
failure silently yields position `0` and never causes a skip.  The
returned list consists of the processed rows in document order, and the
processed/skipped counters count the kept and dropped rows. -/
theorem scrape_skip_characterization :
    (∀ r : RawRow,
      processRow r = none ↔
        (¬ r.dataName.getD "" = "Unknown" ∧
          isOkE (timeToSeconds (goTrimSpace r.timeCell)) = false))
    ∧ (∀ rows : List RawRow,
        scrapeRows rows =
          (rows.filterMap processRow,
            (rows.filter (fun r => (processRow r).isSome)).length,
            (rows.filter (fun r => (processRow r).isNone)).length)) := by
  constructor
  · intro r
    simp only [processRow]
    by_cases hn : r.dataName.getD "" = "Unknown"
    · simp [hn, isOkE]
    · rcases ht : timeToSeconds (goTrimSpace r.timeCell) with e | v <;>
        simp [hn, ht, isOkE]
  · intro rows
    simpa using scrapeRows_go rows ([], 0, 0)

/-- C5: `timeToSeconds` on well-formed input.  Splitting on `":"` into two
segments that `Atoi` reads as non-negative integers yields
`minutes*60 + seconds`; three such segments yield
`hours*3600 + minutes*60 + seconds`; `"23:45"` gives `1425`, `"1:23:45"`
gives `5025`; the empty string and the placeholder `"Unknown"` give `0`
without an error. -/
theorem time_to_seconds_accepts_well_formed :
    (∀ (t a b : String) (m n : Int),
      goSplitColon t = [a, b] → goAtoi a = .ok m → goAtoi b = .ok n →
      0 ≤ m → 0 ≤ n → timeToSeconds t = .ok (m * 60 + n))
    ∧ (∀ (t a b c : String) (x y z : Int),
      goSplitColon t = [a, b, c] → goAtoi a = .ok x → goAtoi b = .ok y →
      goAtoi c = .ok z → 0 ≤ x → 0 ≤ y → 0 ≤ z →
      timeToSeconds t = .ok (x * 3600 + y * 60 + z))
    ∧ timeToSeconds "23:45" = .ok 1425
    ∧ timeToSeconds "1:23:45" = .ok 5025
    ∧ timeToSeconds "" = .ok 0
    ∧ timeToSeconds "Unknown" = .ok 0 := by
  refine ⟨?_, ?_, by decide, by decide, by decide, by decide⟩
  · intro t a b m n hsplit hA hB _ _
    have hne : ¬(t = "" ∨ t = "Unknown") := by
      rintro (rfl | rfl)
      · rw [show goSplitColon "" = [""] from by decide] at hsplit
        simp at hsplit
      · rw [show goSplitColon "Unknown" = ["Unknown"] from by decide] at hsplit
        simp at hsplit
    simp only [timeToSeconds, if_neg hne, hsplit, hA, hB]
  · intro t a b c x y z hsplit hA hB hC _ _ _
    have hne : ¬(t = "" ∨ t = "Unknown") := by
      rintro (rfl | rfl)
      · rw [show goSplitColon "" = [""] from by decide] at hsplit
        simp at hsplit
      · rw [show goSplitColon "Unknown" = ["Unknown"] from by decide] at hsplit
        simp at hsplit
    simp only [timeToSeconds, if_neg hne, hsplit, hA, hB, hC]

/-- C5 witness: the two-segment clause applied at `"23:45"`, all
hypotheses discharged by evaluation. -/
theorem time_to_seconds_accepts_well_formed_witness :
    timeToSeconds "23:45" = .ok (23 * 60 + 45) :=
  time_to_seconds_accepts_well_formed.1 "23:45" "23" "45" 23 45
    (by decide) (by decide) (by decide) (by decide) (by decide)

/-- C6 (counterexample): `timeToSeconds` does not fail on a negative
segment.  `strconv.Atoi` accepts a leading sign, so `"-1:30"` — an input
containing the negative segment `-1` — succeeds with `-1*60 + 30 = -30`,
where the claim requires a format error. -/
theorem time_to_seconds_accepts_negative_segment :
    timeToSeconds "-1:30" = .ok (-30) := by
  decide

/-- C6 (amended): for inputs other than `""` and `"Unknown"`,
`timeToSeconds` succeeds exactly when the string splits on `":"` into two
or three segments each accepted by `strconv.Atoi` — an optionally signed
integer, so negative segments are accepted.  It fails on a wrong segment
count (e.g. `"23:45:67:89"`) and on a non-numeric segment (e.g.
`"ab:cd"`). -/
theorem time_to_seconds_failure_characterization :
    (∀ t : String, ¬ t = "" → ¬ t = "Unknown" →
      isOkE (timeToSeconds t) = segmentsParse t)
    ∧ timeToSeconds "23:45:67:89" = .error "invalid time format"
    ∧ timeToSeconds "ab:cd" = .error "invalid minutes" := by
  refine ⟨?_, by decide, by decide⟩
  intro t h1 h2
  have hne : ¬(t = "" ∨ t = "Unknown") := by tauto
  simp only [timeToSeconds, segmentsParse, if_neg hne]
  rcases hsp : goSplitColon t with _ | ⟨a, _ | ⟨b, _ | ⟨c, _ | ⟨d, l⟩⟩⟩⟩
  · simp [isOkE]
  · simp [isOkE]
  · rcases hA : goAtoi a with eA | mA
    · simp [isOkE, hA]
    · rcases hB : goAtoi b with eB | mB <;> simp [isOkE, hA, hB]
  · rcases hA : goAtoi a with eA | mA
    · simp [isOkE, hA]
    · rcases hB : goAtoi b with eB | mB
      · simp [isOkE, hA, hB]
      · rcases hC : goAtoi c with eC | mC <;> simp [isOkE, hA, hB, hC]
  · simp [isOkE]

/-- C6 witness: the characterization applied at the concrete input
`"ab:cd"`, both hypotheses discharged by evaluation. -/
theorem time_to_seconds_failure_characterization_witness :
    isOkE (timeToSeconds "ab:cd") = segmentsParse "ab:cd" :=
  time_to_seconds_failure_characterization.1 "ab:cd" (by decide) (by decide)

/-- Helper: a value returned by `maxOfList` is a member of the list and
bounds every member. -/
theorem maxOfList_spec (l : List Int) (m : Int) (hm : maxOfList l = some m) :
    m ∈ l ∧ ∀ n ∈ l, n ≤ m := by
  induction l generalizing m with
  | nil => simp [maxOfList] at hm
  | cons x xs ih =>
    rcases hx : maxOfList xs with _ | m'
    · have hxs : xs = [] := by
        cases xs with
        | nil => rfl
        | cons y ys =>
          exfalso
          rcases hy : maxOfList ys with _ | k <;> simp [maxOfList, hy] at hx
      subst hxs
      simp [maxOfList] at hm
      subst hm
      simp
    · simp [maxOfList, hx] at hm
      obtain ⟨hmem, hle⟩ := ih m' hx
      subst hm
      constructor
      · rw [List.mem_cons]
        rcases le_or_lt x m' with h | h
        · exact Or.inr (by rw [max_eq_right h]; exact hmem)
        · exact Or.inl (by rw [max_eq_left h.le])
      · intro n hn
        rcases List.mem_cons.mp hn with rfl | h
        · exact le_max_left _ _
        · exact le_trans (hle n h) (le_max_right x m')

/-- Helper: a non-empty list has a `maxOfList` value. -/
theorem maxOfList_isSome (l : List Int) (h : l ≠ []) :
    ∃ m, maxOfList l = some m := by
  cases l with
  | nil => simp at h
  | cons x xs => rcases hx : maxOfList xs with _ | m' <;> simp [maxOfList, hx]

/-- C7: `GetNextEventNumber` returns 1 when the location has no stored
events, and `m + 1` where `m` is the largest `event_number` among the
location's stored events otherwise. -/
theorem next_event_number_correct (db : DB) (locationID : Int) :
    (((db.events.filter (fun e => e.location_id = locationID)).map
        (fun e => e.event_number)) = [] →
      getNextEventNumber db locationID = 1)
    ∧ (∀ m : Int,
        m ∈ ((db.events.filter (fun e => e.location_id = locationID)).map
          (fun e => e.event_number)) →
        (∀ n ∈ ((db.events.filter (fun e => e.location_id = locationID)).map
          (fun e => e.event_number)), n ≤ m) →
        getNextEventNumber db locationID = m + 1) := by
  constructor
  · intro h
    simp [getNextEventNumber, h, maxOfList]
  · intro m hmem hle
    obtain ⟨m', hm'⟩ := maxOfList_isSome _ (List.ne_nil_of_mem hmem)
    obtain ⟨hmem', hle'⟩ := maxOfList_spec _ m' hm'
    have heq : m = m' := le_antisymm (hle' m hmem) (hle m' hmem')
    subst heq
    simp [getNextEventNumber, hm']

/-- A database holding events numbered 1 and 2 for location 1. -/
def c7Db : DB :=
  ⟨[⟨1, "test-location", "", "AUS"⟩],
    [⟨1, 1, 1, "2023-01-01", "http://example.com/1"⟩,
      ⟨2, 2, 1, "2023-01-08", "http://example.com/2"⟩],
    [], 2, 0⟩

/-- C7 witness: after storing events numbered 1 and 2 the next event
number is 3, and an empty database yields 1. -/
theorem next_event_number_correct_witness :
    getNextEventNumber c7Db 1 = 2 + 1
    ∧ getNextEventNumber (⟨[], [], [], 0, 0⟩ : DB) 1 = 1 :=
  ⟨(next_event_number_correct c7Db 1).2 2 (by decide) (by decide),
    (next_event_number_correct (⟨[], [], [], 0, 0⟩ : DB) 1).1 (by decide)⟩

/-- A database with one stored event `(event_number 1, location 1)`
(rowid 1) and its single stored result (position 1). -/
def c2Db : DB :=
  ⟨[⟨1, "loc", "", "AUS"⟩],
    [⟨1, 1, 1, "2023-01-01", "http://example.com/1"⟩],
    [⟨1, 1, "Runner A", some 1200, "65.5%", "VM35-39", "", 10, 1⟩],
    1, 1⟩

/-- The same event and result as scraped again from the same source. -/
def c2Event : GoEvent := ⟨1, 1, "2023-01-01", "http://example.com/1"⟩

def c2Result : GoResult :=
  ⟨1, "Runner A", "20:00", 1200, "65.5%", "VM35-39", "", 10, 0⟩

/-- C2 (code bug): re-storing an already-stored event with identical
source data is not idempotent.  `StoreEvent`'s `INSERT OR REPLACE` deletes
the old events row (rowid 1) but inserts the replacement under a fresh
`AUTOINCREMENT` rowid 2, which `LastInsertId` hands to `StoreResults`;
the old result row still references event rowid 1 (foreign keys are not
enforced by the driver's default connection), and the re-stored result is
inserted under `(position 1, event 2)`, conflicting with nothing.  The
results table grows from 1 row to 2 — the claim requires unchanged row
counts and content. -/
theorem rescrape_same_event_duplicates_results :
    (storeEvent c2Db c2Event).1 = 2
    ∧ c2Db.results.length = 1
    ∧ (storeResults (storeEvent c2Db c2Event).2 [c2Result]
        (storeEvent c2Db c2Event).1).results.length = 2
    ∧ (storeResults (storeEvent c2Db c2Event).2 [c2Result]
        (storeEvent c2Db c2Event).1).events =
        [⟨2, 1, 1, "2023-01-01", "http://example.com/1"⟩] := by
  decide

/-- A database whose only result row at location 1 carries the anonymized
placeholder name. -/
def c9Db : DB :=
  ⟨[⟨1, "loc", "", "AUS"⟩], [⟨1, 1, 1, "2023-01-01", "u"⟩],
    [⟨1, 1, "Unknown", none, "", "", "", 0, 1⟩], 1, 1⟩

/-- C9 (counterexample): the distinct-runner count of `GetLocationStats`
counts the placeholder.  Its query is `SELECT COUNT(DISTINCT name)` with
no name filter, so a location whose only entrant is `"Unknown"` reports 1
distinct runner, although no identity other than the placeholder occurs —
under the claim the placeholder would not be counted. -/
theorem total_runners_counts_unknown :
    getTotalRunners c9Db 1 = 1
    ∧ ((joinedResults c9Db 1).filter (fun r => ¬ r.name = "Unknown")) = [] := by
  decide

/-- C9 (amended): `GetTopParticipants` never lists the placeholder name
(its query filters `r.name != 'Unknown'`), but the location summary's
distinct-runner count does count it: whenever the placeholder occurs among
the location's result names, `total_runners` is one more than the number
of distinct non-placeholder names. -/
theorem top_participants_exclude_unknown (db : DB) (locationID : Int)
    (limit : Nat) :
    (∀ p ∈ getTopParticipants db locationID limit, ¬ p.1 = "Unknown")
    ∧ ("Unknown" ∈ (joinedResults db locationID).map (fun r => r.name) →
        getTotalRunners db locationID =
          (((joinedResults db locationID).map (fun r => r.name)).filter
            (fun n => ¬ n = "Unknown")).dedup.length + 1) := by
  constructor
  · intro p hp
    have h1 : p ∈ ((((joinedResults db locationID).filter
        (fun r => ¬ r.name = "Unknown")).map (fun r => r.name)).dedup.map
          (fun n => (n, (((joinedResults db locationID).filter
            (fun r => ¬ r.name = "Unknown")).map (fun r => r.name)).count n))) := by
      have h2 := List.take_subset limit _ hp
      rwa [List.mem_insertionSort] at h2
    obtain ⟨n, hn, rfl⟩ := List.mem_map.mp h1
    have h3 := List.mem_dedup.mp hn
    obtain ⟨r, hr, rfl⟩ := List.mem_map.mp h3
    have := (List.mem_filter.mp hr).2
    simpa using this
  · intro hu
    have hcard : ∀ l : List String, l.dedup.length = l.toFinset.card := by
      intro l; rw [List.card_toFinset]
    rw [getTotalRunners, hcard, hcard]
    have hins : ((joinedResults db locationID).map (fun r => r.name)).toFinset =
        insert "Unknown"
          ((((joinedResults db locationID).map (fun r => r.name)).filter
            (fun n => ¬ n = "Unknown")).toFinset) := by
      ext x
      simp only [List.mem_toFinset, Finset.mem_insert, List.mem_filter,
        decide_not, Bool.not_eq_true', decide_eq_false_iff_not]
      constructor
      · intro hx
        by_cases hxu : x = "Unknown"
        · exact Or.inl hxu
        · exact Or.inr ⟨hx, hxu⟩
      · rintro (rfl | ⟨hx, _⟩)
        · exact hu
        · exact hx
    rw [hins, Finset.card_insert_of_not_mem (by simp [List.mem_filter])]

/-- A database where runner `"A"` and the placeholder both appear at
location 1. -/
def c9Db2 : DB :=
  ⟨[⟨1, "loc", "", "AUS"⟩], [⟨1, 1, 1, "2023-01-01", "u"⟩],
    [⟨1, 1, "A", some 1200, "", "", "", 0, 1⟩,
      ⟨2, 2, "Unknown", none, "", "", "", 0, 1⟩], 1, 2⟩

/-- C9 witness: the amended statement evaluated on `c9Db2`, both
hypotheses discharged by evaluation. -/
theorem top_participants_exclude_unknown_witness :
    ¬ (((("A" : String)), (1 : Nat)).1 = "Unknown")
    ∧ getTotalRunners c9Db2 1 =
        (((joinedResults c9Db2 1).map (fun r => r.name)).filter
          (fun n => ¬ n = "Unknown")).dedup.length + 1 :=
  ⟨(top_participants_exclude_unknown c9Db2 1 10).1 ("A", 1) (by decide),
    (top_participants_exclude_unknown c9Db2 1 10).2 (by decide)⟩

/-- Helper: every row of the results/events join comes from the results
table. -/
theorem joinedResults_subset (db : DB) (locationID : Int) (r : ResultRow)
    (h : r ∈ joinedResults db locationID) : r ∈ db.results := by
  simp only [joinedResults, List.mem_flatten, List.mem_map] at h
  obtain ⟨l, ⟨r', hr', rfl⟩, hrl⟩ := h
  obtain ⟨e, he, rfl⟩ := List.mem_map.mp hrl
  exact hr'

/-- Helper: under the two-character precondition on stored rows, every
category the median report emits has at least two characters. -/
theorem categoriesSorted_len (db : DB) (locationID : Int)
    (hlen : ∀ r ∈ db.results, ¬ r.age_category = "" →
      2 ≤ r.age_category.data.length)
    (c : String) (hc : c ∈ categoriesSorted db locationID) :
    2 ≤ c.data.length := by
  rw [categoriesSorted, List.mem_insertionSort, List.mem_dedup] at hc
  obtain ⟨p, hp, rfl⟩ := List.mem_map.mp hc
  rw [medianQueryRows] at hp
  obtain ⟨r, hr, rfl⟩ := List.mem_map.mp hp
  have h1 := List.mem_filter.mp hr
  have h2 := joinedResults_subset db locationID r h1.1
  have h3 := h1.2
  simp only [decide_eq_true_eq] at h3
  exact hlen r h2 h3.2

/-- Helper: grouping succeeds when every category has at least two
characters. -/
theorem groupCategories_isSome (cats : List String)
    (h : ∀ c ∈ cats, 2 ≤ c.data.length) :
    (groupCategories cats).isSome = true := by
  induction cats with
  | nil => simp [groupCategories]
  | cons c cs ih =>
    have hc := h c (List.mem_cons_self c cs)
    have hrest := ih (fun x hx => h x (List.mem_cons_of_mem c hx))
    simp only [groupCategories]
    rw [goSliceTwo, if_pos hc]
    rcases hmm : groupCategories cs with _ | v
    · rw [hmm] at hrest; simp at hrest
    · simp

/-- Helper: the categories `PrintReports` groups are exactly the sorted
distinct categories of the median report. -/
theorem medianCats_eq (db : DB) (locationID : Int) :
    (getMedianTimesByAgeCategory db locationID).map (fun t => t.category) =
      categoriesSorted db locationID := by
  simp only [getMedianTimesByAgeCategory, List.map_map, Function.comp_def]
  exact List.map_id _

/-- A database storing a result whose `age_category` is the single
character `"M"` (with a positive time, so the median report sees it). -/
def c10Db : DB :=
  ⟨[⟨1, "loc", "", "AUS"⟩], [⟨1, 1, 1, "2023-01-01", "u"⟩],
    [⟨1, 1, "A", some 1200, "60%", "M", "", 0, 1⟩], 1, 1⟩

/-- C10: the `stat.Category[:2]` grouping of `PrintReports` and the
`cat[:2]` grouping of `PrintComparisonReport` slice without a length
guard.  When every stored non-empty `age_category` has at least two
characters, both grouping steps complete (no slice panics); and on a
database storing a result whose `age_category` is the single character
`"M"`, both grouping steps reach the out-of-range slice (modelled as
`none`). -/
theorem report_grouping_two_char_precondition (db : DB) (loc1 loc2 : Int)
    (hlen : ∀ r ∈ db.results, ¬ r.age_category = "" →
      2 ≤ r.age_category.data.length) :
    (printReportsGrouping db loc1).isSome = true
    ∧ (comparisonGrouping db loc1 loc2).isSome = true
    ∧ printReportsGrouping c10Db 1 = none
    ∧ comparisonGrouping c10Db 1 2 = none := by
  refine ⟨?_, ?_, by decide, by decide⟩
  · rw [printReportsGrouping, medianCats_eq]
    exact groupCategories_isSome _ (categoriesSorted_len db loc1 hlen)
  · rw [comparisonGrouping]
    refine groupCategories_isSome _ ?_
    intro c hc
    rw [comparisonCategories, List.mem_dedup, List.mem_append,
      medianCats_eq, medianCats_eq] at hc
    rcases hc with h | h
    · exact categoriesSorted_len db loc1 hlen c h
    · exact categoriesSorted_len db loc2 hlen c h

/-- A well-formed database (category `"VM35-39"`) on which the grouping
steps succeed. -/
def c10GoodDb : DB :=
  ⟨[⟨1, "loc", "", "AUS"⟩], [⟨1, 1, 1, "2023-01-01", "u"⟩],
    [⟨1, 1, "A", some 1200, "60%", "VM35-39", "", 0, 1⟩], 1, 1⟩

/-- C10 witness: the precondition discharged by evaluation on
`c10GoodDb`. -/
theorem report_grouping_two_char_precondition_witness :
    (printReportsGrouping c10GoodDb 1).isSome = true
    ∧ (comparisonGrouping c10GoodDb 1 2).isSome = true :=
  ⟨(report_grouping_two_char_precondition c10GoodDb 1 2 (by decide)).1,
    (report_grouping_two_char_precondition c10GoodDb 1 2 (by decide)).2.1⟩

/-- C8: `ClearLocationData`.  For a slug with no stored location, it
returns success and changes nothing.  For a stored slug, when every
transaction step succeeds it commits a state in which exactly the
location's results (those whose `event_id` is among the location's event
rowids), the location's events, and the location row itself are gone while
every other row survives; when any step of the transaction fails
(begin, one of the three deletes, or commit), it reports an error and the
database is unchanged — the deletions are all-or-nothing. -/
theorem clear_location_data_spec (db : DB) (slug : String) (f : TxFailures) :
    (db.locations.find? (fun l => l.slug = slug) = none →
      clearLocationData db slug f = (db, none))
    ∧ (∀ loc, db.locations.find? (fun l => l.slug = slug) = some loc →
        f = TxFailures.none' →
        (clearLocationData db slug f).2 = none
        ∧ (∀ r : ResultRow, r ∈ (clearLocationData db slug f).1.results ↔
            r ∈ db.results ∧
              ¬ r.event_id ∈ ((db.events.filter
                (fun e => e.location_id = loc.id)).map (fun e => e.id)))
        ∧ (∀ e : EventRow, e ∈ (clearLocationData db slug f).1.events ↔
            e ∈ db.events ∧ ¬ e.location_id = loc.id)
        ∧ (∀ l : LocationRow, l ∈ (clearLocationData db slug f).1.locations ↔
            l ∈ db.locations ∧ ¬ l.id = loc.id))
    ∧ (∀ loc, db.locations.find? (fun l => l.slug = slug) = some loc →
        ¬ f = TxFailures.none' →
        (clearLocationData db slug f).1 = db
        ∧ ¬ (clearLocationData db slug f).2 = none) := by
  refine ⟨?_, ?_, ?_⟩
  · intro h
    simp [clearLocationData, h]
  · intro loc hfind hf
    subst hf
    simp only [clearLocationData, hfind, TxFailures.none']
    refine ⟨rfl, ?_, ?_, ?_⟩
    · intro r
      simp [List.mem_filter]
    · intro e
      simp [List.mem_filter]
    · intro l
      simp [List.mem_filter]
  · intro loc hfind hf
    rcases f with ⟨b1, b2, b3, b4, b5⟩
    cases b1 <;> cases b2 <;> cases b3 <;> cases b4 <;> cases b5 <;>
      simp_all [clearLocationData, hfind, TxFailures.none']

/-- The database of the Go `TestClearLocationData` setup: two locations,
one event and one result each. -/
def c8Db : DB :=
  ⟨[⟨1, "location-1", "", "AUS"⟩, ⟨2, "location-2", "", "AUS"⟩],
    [⟨1, 1, 1, "2023-01-01", "http://example.com/1"⟩,
      ⟨2, 1, 2, "2023-01-01", "http://example.com/2"⟩],
    [⟨1, 1, "Runner A", some 1200, "", "", "", 0, 1⟩,
      ⟨2, 1, "Runner B", some 1300, "", "", "", 0, 2⟩],
    2, 2⟩

/-- C8 witness: on `c8Db`, clearing `"location-1"` succeeds, location 2's
result survives while location 1's is gone, clearing an unknown slug is a
no-op, and a failing delete leaves the database unchanged with an error. -/
theorem clear_location_data_spec_witness :
    (clearLocationData c8Db "location-1" TxFailures.none').2 = none
    ∧ ((⟨2, 1, "Runner B", some 1300, "", "", "", 0, 2⟩ : ResultRow) ∈
        (clearLocationData c8Db "location-1" TxFailures.none').1.results ↔
        (⟨2, 1, "Runner B", some 1300, "", "", "", 0, 2⟩ : ResultRow) ∈
          c8Db.results ∧
          ¬ (2 : Int) ∈ ((c8Db.events.filter
            (fun e => e.location_id = (1 : Int))).map (fun e => e.id)))
    ∧ clearLocationData c8Db "missing" TxFailures.none' = (c8Db, none)
    ∧ (clearLocationData c8Db "location-1"
        ⟨false, true, false, false, false⟩).1 = c8Db :=
  ⟨((clear_location_data_spec c8Db "location-1" TxFailures.none').2.1
      ⟨1, "location-1", "", "AUS"⟩ (by decide) rfl).1,
    ((clear_location_data_spec c8Db "location-1" TxFailures.none').2.1
      ⟨1, "location-1", "", "AUS"⟩ (by decide) rfl).2.1
      ⟨2, 1, "Runner B", some 1300, "", "", "", 0, 2⟩,
    (clear_location_data_spec c8Db "missing" TxFailures.none').1 (by decide),
    ((clear_location_data_spec c8Db "location-1"
        ⟨false, true, false, false, false⟩).2.2
      ⟨1, "location-1", "", "AUS"⟩ (by decide) (by decide)).1⟩

/-- C3: every entry of `GetMedianTimesByAgeCategory` reports, for its
category, the middle element of the ascending-sorted non-zero times when
their count is odd, and the (integer) average of the two central sorted
elements when the count is even; the entry's count is the number of those
times.  `sorted` ranges over any ascending ordering of the category's
times, pinned down by sortedness and permutation. -/
theorem median_times_by_age_category_correct (db : DB) (locationID : Int)
    (stat : TimeStats) (sorted : List Int)
    (hstat : stat ∈ getMedianTimesByAgeCategory db locationID)
    (hperm : sorted.Perm (timesForCat db locationID stat.category))
    (hsort : sorted.Sorted (· ≤ ·)) :
    stat.count = sorted.length
    ∧ (sorted.length % 2 = 1 →
        stat.median = secondsToTime (sorted.getD (sorted.length / 2) 0))
    ∧ (sorted.length % 2 = 0 →
        stat.median = secondsToTime
          (((sorted.getD (sorted.length / 2 - 1) 0) +
            (sorted.getD (sorted.length / 2) 0)).tdiv 2)) := by
  rw [getMedianTimesByAgeCategory] at hstat
  obtain ⟨c, hc, rfl⟩ := List.mem_map.mp hstat
  have hne : timesForCat db locationID c ≠ [] := by
    rw [categoriesSorted, List.mem_insertionSort, List.mem_dedup] at hc
    obtain ⟨p, hp, rfl⟩ := List.mem_map.mp hc
    have hmem : p.2 ∈ timesForCat db locationID p.1 := by
      rw [timesForCat]
      exact List.mem_map.mpr ⟨p, List.mem_filter.mpr ⟨hp, by simp⟩, rfl⟩
    exact List.ne_nil_of_mem hmem
  have hkey : (timesForCat db locationID c).insertionSort (· ≤ ·) = sorted :=
    List.eq_of_perm_of_sorted
      ((List.perm_insertionSort _ _).trans hperm.symm)
      (List.sorted_insertionSort _ _) hsort
  have hlen : sorted.length = (timesForCat db locationID c).length :=
    hperm.length_eq
  have hpos : 0 < sorted.length := by
    rw [hlen]
    exact List.length_pos.mpr hne
  refine ⟨hlen.symm, ?_, ?_⟩
  · intro hodd
    show secondsToTime (medianVal (timesForCat db locationID c)) = _
    simp only [medianVal, hkey]
    rw [if_neg (by omega), if_pos hpos]
  · intro heven
    show secondsToTime (medianVal (timesForCat db locationID c)) = _
    simp only [medianVal, hkey]
    rw [if_pos ⟨heven, hpos⟩]

/-- Three `VM35-39` results with times 1200, 1190, 1180 at location 1. -/
def c3Db : DB :=
  ⟨[⟨1, "loc", "", "AUS"⟩],
    [⟨1, 1, 1, "2023-01-01", "u1"⟩, ⟨2, 2, 1, "2023-01-08", "u2"⟩],
    [⟨1, 1, "Runner A", some 1200, "65.5%", "VM35-39", "", 10, 1⟩,
      ⟨2, 2, "Runner B", some 1190, "65.8%", "VM35-39", "", 3, 1⟩,
      ⟨3, 1, "Runner A", some 1180, "66.0%", "VM35-39", "", 11, 2⟩],
    2, 3⟩

/-- Two `VM35-39` results with times 1180 and 1190 at location 1. -/
def c3DbEven : DB :=
  ⟨[⟨1, "loc", "", "AUS"⟩],
    [⟨1, 1, 1, "2023-01-01", "u1"⟩],
    [⟨1, 1, "Runner A", some 1180, "", "VM35-39", "", 10, 1⟩,
      ⟨2, 2, "Runner B", some 1190, "", "VM35-39", "", 3, 1⟩],
    1, 2⟩

/-- C3 witness: times [1180, 1190, 1200] give the middle element 1190
(`"19:50"`), and times [1180, 1190] give the average 1185 (`"19:45"`);
all hypotheses discharged by evaluation. -/
theorem median_times_by_age_category_correct_witness :
    ((⟨"VM35-39", "19:50", 3⟩ : TimeStats).median =
      secondsToTime (([1180, 1190, 1200] : List Int).getD
        (([1180, 1190, 1200] : List Int).length / 2) 0))
    ∧ ((⟨"VM35-39", "19:45", 2⟩ : TimeStats).median =
      secondsToTime (((([1180, 1190] : List Int).getD
          (([1180, 1190] : List Int).length / 2 - 1) 0) +
        (([1180, 1190] : List Int).getD
          (([1180, 1190] : List Int).length / 2) 0)).tdiv 2)) :=
  ⟨(median_times_by_age_category_correct c3Db 1 ⟨"VM35-39", "19:50", 3⟩
      [1180, 1190, 1200] (by decide) (by decide) (by decide)).2.1 (by decide),
    (median_times_by_age_category_correct c3DbEven 1 ⟨"VM35-39", "19:45", 2⟩
      [1180, 1190] (by decide) (by decide) (by decide)).2.2 (by decide)⟩

end Parkrun
